import Mathlib

/-!
# netcomposer: configuration checks, topology synthesis and the artifact pipeline

A shallow embedding of `main.go`.

* Go's `int` is the signed 64-bit integer of the amd64 targets the program
  drives (its tool paths end in `-amd64`).  A value is an `Int`; the results of
  `+` and `*` are reduced to the signed 64-bit range by `wrap64`.
* A slice is a `List`.  `make` panics on a negative length and on a length whose
  byte size is above the allocation limit of the runtime (`maxAlloc`), and
  otherwise returns when the system provides the memory (`Env.allocate`); an
  indexed write panics outside the slice.
* A `for i := 0; i < n; i++` loop runs its body for `i = 0, 1, .., n-1` and
  stops at the first failing iteration.
* Everything `main` asks of the outside (template files, the file system, the
  external tools) is read from an `Env` record of outcomes.
-/

namespace NetComposer

/-! ## Go integers -/

/-- Reduction of an integer to the signed 64-bit range (two's complement). -/
def wrap64 (x : Int) : Int :=
  (x + 9223372036854775808) % 18446744073709551616 - 9223372036854775808

/-- Go `a + b` on `int`. -/
def goAdd (a b : Int) : Int := wrap64 (a + b)

/-- Go `a * b` on `int`. -/
def goMul (a b : Int) : Int := wrap64 (a * b)

/-! ## Data model (`main.go`, lines 34-113) -/

structure dbSpec where
  Provider : String
  Port : Int
  HostPort : Int
  Namespace : String
  Image : String
  Username : String
  Password : String
  Driver : String
  DB : String
deriving DecidableEq, Repr

structure configuration where
  DockerNS : String
  Arch : String
  Version : String
  Network : String
  Domain : String
  OrdererType : String
  DB : dbSpec
  OrdererNodes : Int
  PeerOrgs : Int
  PeersPerOrg : Int
  PeerOrgUsers : Int
  LogLevel : String
  TLSEnabled : Bool
  ChaincodesPath : String
deriving DecidableEq, Repr

structure organization where
  Name : String
  Domain : String
deriving DecidableEq, Repr

structure orderer where
  Name : String
  Organization : organization
  Port : Int
  ContainerPort : Int
deriving DecidableEq, Repr

structure peerdb where
  Name : String
  Provider : String
  Port : Int
  ContainerPort : Int
  Namespace : String
  Image : String
  Username : String
  Password : String
  Driver : String
  DB : String
deriving DecidableEq, Repr

structure peer where
  Name : String
  Organization : organization
  OrdererOrganization : organization
  Port : Int
  ContainerPort : Int
  EventPort : Int
  ContainerEventPort : Int
  DB : peerdb
deriving DecidableEq, Repr

structure genInfo where
  DockerNS : String
  Arch : String
  Version : String
  Name : String
  Domain : String
  OrdererType : String
  DBProvider : String
  OrdererOrganization : organization
  Orderers : List orderer
  PeerOrganizations : List organization
  Peers : List peer
  LogLevel : String
  TLSEnabled : Bool
deriving DecidableEq, Repr

/-- Go zero value of `organization`. -/
def organization.zero : organization := { Name := "", Domain := "" }

/-- Go zero value of `orderer`. -/
def orderer.zero : orderer :=
  { Name := "", Organization := organization.zero, Port := 0, ContainerPort := 0 }

/-- Go zero value of `peerdb`. -/
def peerdb.zero : peerdb :=
  { Name := "", Provider := "", Port := 0, ContainerPort := 0, Namespace := "",
    Image := "", Username := "", Password := "", Driver := "", DB := "" }

/-- Go zero value of `peer`. -/
def peer.zero : peer :=
  { Name := "", Organization := organization.zero,
    OrdererOrganization := organization.zero, Port := 0, ContainerPort := 0,
    EventPort := 0, ContainerEventPort := 0, DB := peerdb.zero }

/-! ## Validation (`loadConfig`, lines 148-198) -/

/-- The check chain of `loadConfig` (lines 148-198), applied to the
configuration that `readConfig` produced; the command-line flag and the reading
of the file (lines 137-146) stay outside.  `.error msg` is the message printed to
stderr before `os.Exit(1)`; `.ok` is the configuration handed to `main`. -/
def loadConfig (config : configuration) : Except String configuration :=
  if config.DockerNS = "" then
    .error "DOCKER_NS must be specified"
  else if config.Arch = "" then
    .error "ARCH must be specified"
  else if config.Version = "" then
    .error "VERSION must be specified"
  else if config.OrdererNodes ≤ 0 then
    .error "Number of orderer nodes must be greater than 0"
  else if config.OrdererType ≠ "solo" ∧ config.OrdererType ≠ "kafka" then
    .error ("Unsupported orderer type " ++ config.OrdererType)
  else if config.OrdererType = "solo" ∧ config.OrdererNodes ≠ 1 then
    .error ("Only one orderer node must be specified if orderer type is "
      ++ config.OrdererType)
  else if config.DB.Provider ≠ "goleveldb" ∧ config.DB.Provider ≠ "CouchDB" then
    .error ("Unsupported db provider  " ++ config.DB.Provider)
  else if config.PeerOrgs ≤ 0 then
    .error "Number of peer organziation must be greater than 0"
  else if config.PeerOrgUsers ≤ 0 then
    .error "Number of peer per organziation must be greater than 0"
  else if config.PeerOrgUsers < 0 then
    .error "Number of user peers per organziation must be non negative"
  else
    .ok config

/-! ## Slices and loops -/

/-- The allocation limit of the Go runtime on amd64 (`runtime.maxAlloc`,
`1 << 48` bytes). -/
def maxAlloc : Nat := 281474976710656

/-- Size in bytes of an `organization` on amd64: two string headers of 16 bytes. -/
def sizeofOrganization : Nat := 32

/-- Size in bytes of an `orderer` on amd64: a string header, an `organization`
and two `int`s. -/
def sizeofOrderer : Nat := 64

/-- Size in bytes of a `peer` on amd64: a string header, two `organization`s, four
`int`s and a `peerdb` (eight string headers and two `int`s, 144 bytes). -/
def sizeofPeer : Nat := 256

/-- Go `make([]T, n)` for an element type of `size` bytes (`runtime.makeslice`):
a run-time panic when `n` is negative or `n * size` is above `maxAlloc`, a fatal
error when the system does not provide the `n * size` bytes (`allocate`, not
asked for an empty block), and `n` zero values otherwise. -/
def makeSlice {α : Type} (allocate : Nat → Bool) (size : Nat) (zero : α) (n : Int) :
    Except String (List α) :=
  if n < 0 ∨ (maxAlloc : Int) < n * (size : Int) then
    .error "panic: runtime error: makeslice: len out of range"
  else if n.toNat * size ≠ 0 ∧ allocate (n.toNat * size) = false then
    .error "fatal error: runtime: out of memory"
  else .ok (List.replicate n.toNat zero)

/-- The condition under which `make([]T, n)` returns, for an element type of
`size` bytes. -/
def Admits (allocate : Nat → Bool) (size : Nat) (n : Int) : Prop :=
  0 ≤ n ∧ n * (size : Int) ≤ (maxAlloc : Int) ∧
    (n.toNat * size = 0 ∨ allocate (n.toNat * size) = true)

/-- Go `xs[i] = v`: a run-time panic when `i` is outside the slice. -/
def setIndex {α : Type} (xs : List α) (i : Int) (v : α) : Except String (List α) :=
  if 0 ≤ i ∧ i < (xs.length : Int) then .ok (xs.set i.toNat v)
  else .error "panic: runtime error: index out of range"

/-- The iterations `i, i+1, ..` of a counting loop, `k` of them left to run; the
loop ends at the first panic.  (`i++` cannot overflow: `i` is below the bound.) -/
def forLoopAux {σ : Type} (body : σ → Int → Except String σ) :
    Nat → Int → σ → Except String σ
  | 0, _, s => .ok s
  | k + 1, i, s =>
    match body s i with
    | .error e => .error e
    | .ok s1 => forLoopAux body k (i + 1) s1

/-- Go `for i := 0; i < n; i++ { s = body s i }`: `n` iterations from `i = 0`
when `n` is positive, none otherwise. -/
def forLoop {σ : Type} (n : Int) (body : σ → Int → Except String σ) (s : σ) :
    Except String σ :=
  forLoopAux body n.toNat 0 s

/-! ## Topology synthesis (`main`, lines 223-293) -/

/-- The orderer organization (lines 223-226). -/
def ordererOrganization (config : configuration) : organization :=
  { Name := "ordererOrg", Domain := config.Domain }

/-- The orderer written at index `i` (lines 230-235). -/
def ordererAt (config : configuration) (i : Int) : orderer :=
  { Name := "orderer" ++ toString (goAdd i 1) ++ "." ++ (ordererOrganization config).Domain
    Organization := ordererOrganization config
    Port := goAdd 7050 (goMul 100 i)
    ContainerPort := 7050 }

/-- Body of the orderer loop (line 230): `ordererList[i] = orderer{..}`. -/
def ordererBody (config : configuration) (ordererList : List orderer) (i : Int) :
    Except String (List orderer) :=
  setIndex ordererList i (ordererAt config i)

/-- The organization written at index `i` (lines 242-245). -/
def organizationAt (config : configuration) (i : Int) : organization :=
  { Name := "org" ++ toString (goAdd i 1)
    Domain := "org" ++ toString (goAdd i 1) ++ "." ++ config.Domain }

/-- The value `offset` of line 248, which is also the index of line 267. -/
def offset (config : configuration) (i j : Int) : Int :=
  goAdd (goMul i config.PeersPerOrg) j

/-- The peer built by iteration `j` of the inner loop for organization `i`
(lines 248-276); `org` is the value read from `peerOrganizationList[i]`. -/
def peerAt (config : configuration) (org : organization) (i j : Int) : peer :=
  let offset := offset config i j
  let dbPort := goAdd config.DB.HostPort offset
  let peerHostPort := goAdd 7051 (goMul 10 offset)
  let eventHostPort := goAdd 7053 (goMul 10 offset)
  let peerdb : peerdb :=
    { Name := "peer" ++ toString (goAdd j 1) ++ ".db." ++ org.Domain
      Provider := config.DB.Provider
      Port := dbPort
      ContainerPort := config.DB.Port
      Namespace := config.DB.Namespace
      Image := config.DB.Image
      Username := config.DB.Username
      Password := config.DB.Password
      Driver := config.DB.Driver
      DB := config.DB.DB }
  { Name := "peer" ++ toString (goAdd j 1) ++ "." ++ org.Domain
    Organization := org
    OrdererOrganization := ordererOrganization config
    Port := peerHostPort
    ContainerPort := 7051
    EventPort := eventHostPort
    ContainerEventPort := 7053
    DB := peerdb }

/-- Body of the inner peer loop (line 267): `peerList[i*PeersPerOrg+j] = peer{..}`.
The slice `peerOrganizationList` is only read, at index `i`, which the enclosing
iteration has just written. -/
def peerBody (config : configuration) (peerOrganizationList : List organization)
    (i : Int) (peerList : List peer) (j : Int) : Except String (List peer) :=
  setIndex peerList (offset config i j)
    (peerAt config (peerOrganizationList.getD i.toNat organization.zero) i j)

/-- Body of the organization loop (lines 242-277). -/
def orgBody (config : configuration) (st : List organization × List peer) (i : Int) :
    Except String (List organization × List peer) :=
  match setIndex st.1 i (organizationAt config i) with
  | .error e => .error e
  | .ok peerOrganizationList =>
    match forLoop config.PeersPerOrg (peerBody config peerOrganizationList i) st.2 with
    | .error e => .error e
    | .ok peerList => .ok (peerOrganizationList, peerList)

/-- Lines 223-293 of `main`: the `genInfo` value handed to the templates, or the
run-time failure that ends the process.  The composite literal of lines 280-293
names every field of `genInfo` but `Domain`, which keeps its zero value. -/
def synthesize (allocate : Nat → Bool) (config : configuration) : Except String genInfo :=
  match makeSlice allocate sizeofOrderer orderer.zero config.OrdererNodes with
  | .error e => .error e
  | .ok ordererList0 =>
  match forLoop config.OrdererNodes (ordererBody config) ordererList0 with
  | .error e => .error e
  | .ok ordererList =>
  match makeSlice allocate sizeofOrganization organization.zero config.PeerOrgs with
  | .error e => .error e
  | .ok peerOrganizationList0 =>
  match makeSlice allocate sizeofPeer peer.zero
      (goMul config.PeerOrgs config.PeersPerOrg) with
  | .error e => .error e
  | .ok peerList0 =>
  match forLoop config.PeerOrgs (orgBody config) (peerOrganizationList0, peerList0) with
  | .error e => .error e
  | .ok (peerOrganizationList, peerList) =>
    .ok { DockerNS := config.DockerNS
          Arch := config.Arch
          Version := config.Version
          Name := config.Network
          Domain := ""
          OrdererType := config.OrdererType
          DBProvider := config.DB.Provider
          OrdererOrganization := ordererOrganization config
          Orderers := ordererList
          PeerOrganizations := peerOrganizationList
          Peers := peerList
          LogLevel := config.LogLevel
          TLSEnabled := config.TLSEnabled }

/-! ## The pipeline (`main`, lines 201-311) -/

/-- The calls `main` makes after `loadConfig`, in the order of the source. -/
inductive Step where
  | mkdirGenesis
  | mkdirChannels
  | loadTemplate (templateFile : String)
  | execTemplateWithConfig (targetFile : String)
  | generateCryptoMaterial
  | copyFolder
  | synthesize
  | execTemplate (targetFile : String)
  | generateGenesisBlock
  | generateChannelConfig
  | chmod
deriving DecidableEq, Repr

/-- What follows a failed call: `exit` where the callee or the call site ends
the process (`os.Exit(1)`, `log.Fatalln`), `ignore` where `main` drops the
returned `error` (`os.MkdirAll`, `execTemplate`, `execTemplateWithConfig`). -/
inductive OnError where
  | exit
  | ignore
deriving DecidableEq, Repr

/-- Outcome of every effect of `main` on the outside world; `allocate bytes`
tells whether the system provides a block of that many bytes to `make`. -/
structure Env where
  allocate : Nat → Bool
  mkdirGenesis : Except String Unit
  mkdirChannels : Except String Unit
  loadTemplate : String → Except String Unit
  execTemplateWithConfig : String → configuration → Except String Unit
  execTemplate : String → genInfo → Except String Unit
  generateCryptoMaterial : Except String Unit
  copyFolder : Except String Unit
  generateGenesisBlock : Except String Unit
  generateChannelConfig : Except String Unit
  chmod : Except String Unit

/-- A run of the process: the calls made, in order, and the exit status. -/
structure Run where
  trace : List Step
  exit : Nat
deriving DecidableEq, Repr

/-- Straight-line execution of calls: each call is made in turn, and a failed
call with policy `exit` is the last one (exit status 1). -/
def runSteps : List (Step × Except String Unit × OnError) → Run
  | [] => { trace := [], exit := 0 }
  | (s, .error _, .exit) :: _ => { trace := [s], exit := 1 }
  | (s, _, _) :: rest =>
    let r := runSteps rest
    { trace := s :: r.trace, exit := r.exit }

/-- Lines 210-221 of `main`: the calls between `loadConfig` and the synthesis. -/
def stepsBefore (env : Env) (config : configuration) :
    List (Step × Except String Unit × OnError) :=
  [ (.mkdirGenesis, env.mkdirGenesis, .ignore),
    (.mkdirChannels, env.mkdirChannels, .ignore),
    (.loadTemplate "crypto-config-template.yaml",
      env.loadTemplate "crypto-config-template.yaml", .exit),
    (.execTemplateWithConfig "crypto-config.yaml",
      env.execTemplateWithConfig "crypto-config.yaml" config, .ignore),
    (.generateCryptoMaterial, env.generateCryptoMaterial, .exit) ]
  ++ (if config.ChaincodesPath ≠ "" then [(.copyFolder, env.copyFolder, .exit)] else [])
  ++ [ (.loadTemplate "configtx-template.yaml",
         env.loadTemplate "configtx-template.yaml", .exit),
       (.loadTemplate "docker-compose-template.yaml",
         env.loadTemplate "docker-compose-template.yaml", .exit) ]

/-- Lines 295-309 of `main`: the calls after the synthesis. -/
def stepsAfter (env : Env) (config : configuration) (gi : genInfo) :
    List (Step × Except String Unit × OnError) :=
  [ (.execTemplate "configtx.yaml", env.execTemplate "configtx.yaml" gi, .ignore),
    (.execTemplate "docker-compose.yaml", env.execTemplate "docker-compose.yaml" gi, .ignore),
    (.generateGenesisBlock, env.generateGenesisBlock, .exit),
    (.generateChannelConfig, env.generateChannelConfig, .exit),
    (.loadTemplate "pull-docker-images-template.yaml",
      env.loadTemplate "pull-docker-images-template.yaml", .exit),
    (.execTemplateWithConfig "pull-docker-images.sh",
      env.execTemplateWithConfig "pull-docker-images.sh" config, .ignore),
    (.chmod, env.chmod, .exit) ]

/-- The function `main`, on the configuration read by `readConfig`: a rejected
configuration exits with status 1 before any call, a panic or fatal error of
the synthesis exits with status 2. -/
def main (env : Env) (parsed : configuration) : Run :=
  match loadConfig parsed with
  | .error _ => { trace := [], exit := 1 }
  | .ok config =>
    let r1 := runSteps (stepsBefore env config)
    if r1.exit ≠ 0 then r1
    else
      match synthesize env.allocate config with
      | .error _ => { trace := r1.trace ++ [.synthesize], exit := 2 }
      | .ok gi =>
        let r2 := runSteps (stepsAfter env config gi)
        { trace := r1.trace ++ .synthesize :: r2.trace, exit := r2.exit }

/-! ## Sample inputs -/

/-- A sample network description: one solo orderer, two organizations with one
peer each. -/
def sampleConfig : configuration :=
  { DockerNS := "hyperledger", Arch := "x86_64", Version := "1.0.0",
    Network := "samplenet", Domain := "example.com", OrdererType := "solo",
    DB := { Provider := "CouchDB", Port := 5984, HostPort := 5984, Namespace := "couchdb",
            Image := "fabric-couchdb", Username := "admin", Password := "secret",
            Driver := "couchdb", DB := "ledger" },
    OrdererNodes := 1, PeerOrgs := 2, PeersPerOrg := 1, PeerOrgUsers := 1,
    LogLevel := "debug", TLSEnabled := true, ChaincodesPath := "" }

/-- An environment in which every call succeeds. -/
def envOk : Env :=
  { allocate := fun _ => true,
    mkdirGenesis := .ok (), mkdirChannels := .ok (), loadTemplate := fun _ => .ok (),
    execTemplateWithConfig := fun _ _ => .ok (), execTemplate := fun _ _ => .ok (),
    generateCryptoMaterial := .ok (), copyFolder := .ok (),
    generateGenesisBlock := .ok (), generateChannelConfig := .ok (), chmod := .ok () }

/-- The environment `envOk`, except that `configtx.yaml` cannot be created. -/
def envConfigtxFails : Env :=
  { envOk with
    execTemplate := fun targetFile _ =>
      if targetFile = "configtx.yaml" then .error "open configtx.yaml: permission denied"
      else .ok () }

/-! ## Closed form of the synthesized lists -/

/-- Closed form of `ordererList` after the loop of lines 229-236. -/
def expectedOrderers (config : configuration) : List orderer :=
  (List.range config.OrdererNodes.toNat).map (fun (i : Nat) => ordererAt config (i : Int))

/-- Closed form of `peerOrganizationList` after the loop of lines 241-278. -/
def expectedOrganizations (config : configuration) : List organization :=
  (List.range config.PeerOrgs.toNat).map (fun (i : Nat) => organizationAt config (i : Int))

/-- Closed form of `peerList` after the loop of lines 241-278: organization by
organization, and peer by peer inside an organization. -/
def expectedPeers (config : configuration) : List peer :=
  (List.range config.PeerOrgs.toNat).flatMap (fun (i : Nat) =>
    (List.range config.PeersPerOrg.toNat).map (fun (j : Nat) =>
      peerAt config (organizationAt config (i : Int)) (i : Int) (j : Int)))

/-- Closed form of the `genInfo` value of lines 280-293. -/
def expectedGenInfo (config : configuration) : genInfo :=
  { DockerNS := config.DockerNS
    Arch := config.Arch
    Version := config.Version
    Name := config.Network
    Domain := ""
    OrdererType := config.OrdererType
    DBProvider := config.DB.Provider
    OrdererOrganization := ordererOrganization config
    Orderers := expectedOrderers config
    PeerOrganizations := expectedOrganizations config
    Peers := expectedPeers config
    LogLevel := config.LogLevel
    TLSEnabled := config.TLSEnabled }


/-- The sample with two orderer nodes under the `solo` orderer type. -/
def cfgSoloTwo : configuration := { sampleConfig with OrdererNodes := 2 }

/-- The sample without peer organizations. -/
def cfgNoOrgs : configuration := { sampleConfig with PeerOrgs := 0 }

/-- The sample with `peersPerOrganization: 0`. -/
def cfgNoPeers : configuration := { sampleConfig with PeersPerOrg := 0 }

/-- The sample with `usersPerOrganization: 0`. -/
def cfgNoUsers : configuration := { sampleConfig with PeerOrgUsers := 0 }

/-- The sample with `peerOrganizations: 1` and `peersPerOrganization: -1`. -/
def cfgNegPeers : configuration := { sampleConfig with PeerOrgs := 1, PeersPerOrg := -1 }

/-- Four organizations of `2^62` peers: the product `2^64` wraps to `0`. -/
def cfgOverflow : configuration :=
  { sampleConfig with PeerOrgs := 4, PeersPerOrg := 4611686018427387904 }

/-- The sample with the storage host port set to the first peer port. -/
def cfgPortClash : configuration :=
  { sampleConfig with DB := { sampleConfig.DB with HostPort := 7051 } }

/-- The sample with the storage host port set to the largest `int`, `2^63 - 1`. -/
def cfgHostPortMax : configuration :=
  { sampleConfig with DB := { sampleConfig.DB with HostPort := 9223372036854775807 } }

/-- The sample with the storage host port set to 20000, above every other port. -/
def cfgHostPortHigh : configuration :=
  { sampleConfig with DB := { sampleConfig.DB with HostPort := 20000 } }


/-! # Theorems -/

/-! ## Arithmetic of `wrap64` -/

theorem wrap64_of_inRange (x : Int) (h1 : -9223372036854775808 ≤ x)
    (h2 : x < 9223372036854775808) : wrap64 x = x := by
  unfold wrap64
  omega

theorem wrap64_lt (x : Int) : wrap64 x < 9223372036854775808 := by
  unfold wrap64
  omega

/-! ## Slices and loops -/

theorem setIndex_ok {α : Type} (xs : List α) (i : Nat) (v : α) (h : i < xs.length) :
    setIndex xs (i : Int) v = .ok (xs.set i v) := by
  unfold setIndex
  have h1 : (0 : Int) ≤ (i : Int) ∧ (i : Int) < (xs.length : Int) := by omega
  rw [if_pos h1]
  simp

theorem setIndex_inv {α : Type} {xs ys : List α} {i : Int} {v : α}
    (h : setIndex xs i v = .ok ys) :
    0 ≤ i ∧ i < (xs.length : Int) ∧ ys.length = xs.length := by
  unfold setIndex at h
  split at h
  · rename_i hc
    injection h with h
    subst h
    exact ⟨hc.1, hc.2, by simp⟩
  · cases h

theorem set_fill {α : Type} (done : List α) (z v : α) (k : Nat) :
    (done ++ List.replicate (k + 1) z).set done.length v
      = (done ++ [v]) ++ List.replicate k z := by
  rw [List.set_append_right _ _ (Nat.le_refl _)]
  simp [List.replicate_succ]

/-- A loop whose iteration `j` writes `f j` at index `b + j` fills a block of
zero values from left to right. -/
theorem forLoopAux_fill {α : Type} (z : α) (f : Int → α) (idx : Int → Int) (b : Nat) :
    ∀ (k m r : Nat) (done : List α), done.length = b + m →
      (∀ j : Nat, m ≤ j → j < m + k → idx (j : Int) = ((b + j : Nat) : Int)) →
      forLoopAux (fun l j => setIndex l (idx j) (f j)) k (m : Int)
          (done ++ List.replicate (k + r) z)
        = .ok (done ++ (List.range' m k).map (fun (j : Nat) => f (j : Int)) ++ List.replicate r z) := by
  intro k
  induction k with
  | zero =>
    intro m r done _ _
    simp [forLoopAux]
  | succ k ih =>
    intro m r done hlen hidx
    have hi : idx (m : Int) = ((done.length : Nat) : Int) := by
      rw [hidx m (Nat.le_refl _) (by omega), hlen]
    have hlt : done.length < (done ++ List.replicate (k + 1 + r) z).length := by
      simp only [List.length_append, List.length_replicate]
      omega
    have hstep : setIndex (done ++ List.replicate (k + 1 + r) z) (idx (m : Int)) (f (m : Int))
        = .ok ((done ++ [f (m : Int)]) ++ List.replicate (k + r) z) := by
      rw [hi, setIndex_ok _ _ _ hlt]
      have : k + 1 + r = (k + r) + 1 := by omega
      rw [this, set_fill]
    unfold forLoopAux
    simp only [hstep]
    have hcast : ((m : Int) + 1) = ((m + 1 : Nat) : Int) := by omega
    rw [hcast, ih (m + 1) r (done ++ [f (m : Int)]) (by simp; omega)
      (fun j h1 h2 => hidx j (by omega) (by omega))]
    simp [List.range'_succ]

/-- Every iteration of a loop that returns has returned, from a state that
satisfies any invariant of the body. -/
theorem forLoopAux_ok_step {σ : Type} (body : σ → Int → Except String σ) (Inv : σ → Prop)
    (hpres : ∀ s i s1, Inv s → body s i = .ok s1 → Inv s1) :
    ∀ (k : Nat) (m : Int) (s r : σ), Inv s → forLoopAux body k m s = .ok r →
      Inv r ∧ ∀ j : Nat, j < k → ∃ s0 s1, Inv s0 ∧ body s0 (m + j) = .ok s1 := by
  intro k
  induction k with
  | zero =>
    intro m s r hs h
    simp only [forLoopAux] at h
    injection h with h
    subst h
    exact ⟨hs, fun j hj => absurd hj (Nat.not_lt_zero _)⟩
  | succ k ih =>
    intro m s r hs h
    unfold forLoopAux at h
    cases hb : body s m with
    | error e => rw [hb] at h; cases h
    | ok s1 =>
      rw [hb] at h
      have h1 := ih (m + 1) s1 r (hpres s m s1 hs hb) h
      refine ⟨h1.1, ?_⟩
      intro j hj
      cases j with
      | zero => exact ⟨s, s1, hs, by simpa using hb⟩
      | succ j =>
        obtain ⟨s0, s2, hs0, hb0⟩ := h1.2 j (by omega)
        refine ⟨s0, s2, hs0, ?_⟩
        have : m + ((j + 1 : Nat) : Int) = m + 1 + (j : Int) := by omega
        rw [this]
        exact hb0

/-! ## The loops of the synthesis -/

theorem offset_eq (config : configuration) (p m j : Nat) (hp : config.PeersPerOrg = (p : Int))
    (h : m * p + j < 9223372036854775808) :
    offset config (m : Int) (j : Int) = ((m * p + j : Nat) : Int) := by
  have hq : (m : Int) * (p : Int) = ((m * p : Nat) : Int) := by push_cast; rfl
  unfold offset goAdd goMul
  rw [hp, hq, wrap64_of_inRange ((m * p : Nat) : Int) (by omega) (by omega),
    wrap64_of_inRange _ (by omega) (by omega)]
  omega

theorem ordererLoop_eq (config : configuration) :
    forLoop config.OrdererNodes (ordererBody config)
        (List.replicate config.OrdererNodes.toNat orderer.zero)
      = .ok (expectedOrderers config) := by
  have h := forLoopAux_fill orderer.zero (fun i => ordererAt config i) (fun i => i) 0
    config.OrdererNodes.toNat 0 0 [] (by simp) (by intro j _ _; simp)
  simp only [List.nil_append, Nat.add_zero, List.replicate_zero, List.append_nil] at h
  unfold forLoop expectedOrderers
  rw [List.range_eq_range']
  exact h

theorem peerLoop_eq (config : configuration) (orgs : List organization) (p m r : Nat)
    (done : List peer) (hp : config.PeersPerOrg = (p : Int))
    (horg : orgs.getD m organization.zero = organizationAt config (m : Int))
    (hlen : done.length = m * p) (hN : m * p + p < 9223372036854775808 + 1) :
    forLoop config.PeersPerOrg (peerBody config orgs (m : Int))
        (done ++ List.replicate (p + r) peer.zero)
      = .ok (done ++ (List.range' 0 p).map (fun (j : Nat) =>
          peerAt config (organizationAt config (m : Int)) (m : Int) (j : Int))
            ++ List.replicate r peer.zero) := by
  have h := forLoopAux_fill peer.zero
    (fun j => peerAt config (organizationAt config (m : Int)) (m : Int) j)
    (fun j => offset config (m : Int) j) (m * p) p 0 r done (by omega)
    (by intro j _ hj; exact offset_eq config p m j hp (by omega))
  unfold forLoop
  rw [hp]
  have hb : peerBody config orgs (m : Int)
      = fun l j => setIndex l (offset config (m : Int) j)
          (peerAt config (organizationAt config (m : Int)) (m : Int) j) := by
    funext l j
    unfold peerBody
    rw [Int.toNat_ofNat, horg]
  rw [hb]
  exact h

theorem orgLoop_eq (config : configuration) (p n : Nat) (hp : config.PeersPerOrg = (p : Int))
    (hN : n * p < 9223372036854775808) :
    ∀ (k m : Nat) (dO : List organization) (dP : List peer), m + k = n →
      dO.length = m → dP.length = m * p →
      forLoopAux (orgBody config) k (m : Int)
          (dO ++ List.replicate k organization.zero, dP ++ List.replicate (k * p) peer.zero)
        = .ok (dO ++ (List.range' m k).map (fun (i : Nat) => organizationAt config (i : Int)),
            dP ++ (List.range' m k).flatMap (fun (i : Nat) => (List.range' 0 p).map (fun (j : Nat) =>
              peerAt config (organizationAt config (i : Int)) (i : Int) (j : Int)))) := by
  intro k
  induction k with
  | zero =>
    intro m dO dP _ _ _
    simp [forLoopAux]
  | succ k ih =>
    intro m dO dP hmk hO hP
    have hlt : dO.length < (dO ++ List.replicate (k + 1) organization.zero).length := by
      simp only [List.length_append, List.length_replicate]
      omega
    have hset : setIndex (dO ++ List.replicate (k + 1) organization.zero) (m : Int)
        (organizationAt config (m : Int))
        = .ok ((dO ++ [organizationAt config (m : Int)])
            ++ List.replicate k organization.zero) := by
      rw [← hO, setIndex_ok _ _ _ hlt, set_fill]
    have hget : ((dO ++ [organizationAt config (m : Int)])
        ++ List.replicate k organization.zero).getD m organization.zero
        = organizationAt config (m : Int) := by
      rw [List.getD_eq_getElem?_getD, List.append_assoc,
        List.getElem?_append_right (by omega)]
      simp [hO]
    have hmp : m * p + p ≤ n * p := by
      have : (m + 1) * p ≤ n * p := Nat.mul_le_mul_right p (by omega)
      rw [Nat.add_mul, Nat.one_mul] at this
      exact this
    have hinner := peerLoop_eq config
      ((dO ++ [organizationAt config (m : Int)]) ++ List.replicate k organization.zero)
      p m (k * p) dP hp hget hP (by omega)
    have hrep : (k + 1) * p = p + k * p := by rw [Nat.add_mul, Nat.one_mul, Nat.add_comm]
    unfold forLoopAux
    simp only [orgBody, hset, hrep, hinner]
    have hcast : ((m : Int) + 1) = ((m + 1 : Nat) : Int) := by omega
    rw [hcast, ih (m + 1) _ _ (by omega) (by simp; omega)
      (by simp only [List.length_append, List.length_map, List.length_range', hP]
          rw [Nat.add_mul, Nat.one_mul])]
    simp [List.range'_succ]

/-! ## Allocation -/

theorem makeSlice_of_admits {α : Type} (allocate : Nat → Bool) (size : Nat) (zero : α)
    (n : Int) (h : Admits allocate size n) :
    makeSlice allocate size zero n = .ok (List.replicate n.toNat zero) := by
  obtain ⟨h0, h1, h2⟩ := h
  unfold makeSlice
  rw [if_neg (by omega), if_neg]
  rintro ⟨hne, hf⟩
  rcases h2 with h2 | h2
  · exact hne h2
  · rw [h2] at hf
    cases hf

theorem makeSlice_inv {α : Type} {allocate : Nat → Bool} {size : Nat} {zero : α} {n : Int}
    {l : List α} (h : makeSlice allocate size zero n = .ok l) :
    Admits allocate size n ∧ l = List.replicate n.toNat zero := by
  unfold makeSlice at h
  split at h
  · cases h
  rename_i h1
  split at h
  · cases h
  rename_i h2
  injection h with h
  refine ⟨⟨by omega, by omega, ?_⟩, h.symm⟩
  by_cases hz : n.toNat * size = 0
  · exact Or.inl hz
  · right
    cases hb : allocate (n.toNat * size) with
    | true => rfl
    | false => exact absurd ⟨hz, hb⟩ h2

theorem admits_orderer_le {allocate : Nat → Bool} {n : Int}
    (h : Admits allocate sizeofOrderer n) : n ≤ 4398046511104 := by
  have h1 := h.2.1
  unfold sizeofOrderer maxAlloc at h1
  omega

theorem admits_peer_le {allocate : Nat → Bool} {n : Int}
    (h : Admits allocate sizeofPeer n) : n ≤ 1099511627776 := by
  have h1 := h.2.1
  unfold sizeofPeer maxAlloc at h1
  omega

/-- The synthesis returns the closed form whenever its three `make` calls
return for the exact lengths. -/
theorem synthesize_eq (allocate : Nat → Bool) (config : configuration)
    (hA1 : Admits allocate sizeofOrderer config.OrdererNodes)
    (hA2 : Admits allocate sizeofOrganization config.PeerOrgs)
    (hP : 0 ≤ config.PeersPerOrg)
    (hA3 : Admits allocate sizeofPeer (config.PeerOrgs * config.PeersPerOrg)) :
    synthesize allocate config = .ok (expectedGenInfo config) := by
  obtain ⟨n, hn⟩ := Int.eq_ofNat_of_zero_le hA2.1
  obtain ⟨p, hp⟩ := Int.eq_ofNat_of_zero_le hP
  have hb := admits_peer_le hA3
  have hnp : (n : Int) * (p : Int) = ((n * p : Nat) : Int) := by push_cast; rfl
  have hNat : n * p < 9223372036854775808 := by
    rw [hn, hp, hnp] at hb
    omega
  have hmul : goMul config.PeerOrgs config.PeersPerOrg
      = config.PeerOrgs * config.PeersPerOrg := by
    unfold goMul
    rw [hn, hp, hnp, wrap64_of_inRange _ (by omega) (by omega)]
  have htn : (config.PeerOrgs * config.PeersPerOrg).toNat = n * p := by
    rw [hn, hp, hnp, Int.toNat_ofNat]
  have hloop := orgLoop_eq config p n hp hNat n 0 [] [] (by omega) rfl (by simp)
  simp only [List.nil_append, Nat.cast_zero] at hloop
  unfold synthesize
  rw [hmul, makeSlice_of_admits allocate _ _ _ hA1, makeSlice_of_admits allocate _ _ _ hA2,
    makeSlice_of_admits allocate _ _ _ hA3]
  simp only [ordererLoop_eq]
  unfold forLoop
  rw [htn, hn, Int.toNat_ofNat]
  simp only [hloop]
  unfold expectedGenInfo expectedOrganizations expectedPeers
  rw [hn, hp]
  simp only [Int.toNat_ofNat, List.range_eq_range']

/-! ## What a returning synthesis implies -/

theorem peerBody_inv {config : configuration} {orgs : List organization} {i j : Int}
    {l l1 : List peer} (h : peerBody config orgs i l j = .ok l1) :
    l1.length = l.length ∧ 0 ≤ offset config i j ∧ offset config i j < (l.length : Int) := by
  unfold peerBody at h
  have h1 := setIndex_inv h
  exact ⟨h1.2.2, h1.1, h1.2.1⟩

theorem orgBody_inv {config : configuration} {s s1 : List organization × List peer} {i : Int}
    (h : orgBody config s i = .ok s1) :
    s1.2.length = s.2.length ∧
      ∀ j : Nat, j < config.PeersPerOrg.toNat →
        0 ≤ offset config i j ∧ offset config i j < (s.2.length : Int) := by
  unfold orgBody at h
  split at h
  · cases h
  · rename_i orgs _
    split at h
    · cases h
    · rename_i peers hloop
      injection h with h
      subst h
      have hstep := forLoopAux_ok_step (peerBody config orgs i)
        (fun l => l.length = s.2.length)
        (fun l j l1 hl hb => by
          show l1.length = s.2.length
          rw [(peerBody_inv hb).1]; exact hl)
        config.PeersPerOrg.toNat 0 s.2 peers rfl hloop
      refine ⟨hstep.1, ?_⟩
      intro j hj
      obtain ⟨l0, l1, hl0, hb⟩ := hstep.2 j hj
      have hb1 := peerBody_inv hb
      rw [Int.zero_add, hl0] at hb1
      exact ⟨hb1.2.1, hb1.2.2⟩

/-- When the synthesis returns, its three `make` calls have returned and every
index written by the loops was inside `peerList`. -/
theorem synthesize_ok_inv {allocate : Nat → Bool} {config : configuration} {gi : genInfo}
    (h : synthesize allocate config = .ok gi) :
    Admits allocate sizeofOrderer config.OrdererNodes ∧
      Admits allocate sizeofOrganization config.PeerOrgs ∧
      Admits allocate sizeofPeer (goMul config.PeerOrgs config.PeersPerOrg) ∧
      ∀ i j : Nat, i < config.PeerOrgs.toNat → j < config.PeersPerOrg.toNat →
        0 ≤ offset config i j ∧
          offset config i j < goMul config.PeerOrgs config.PeersPerOrg := by
  unfold synthesize at h
  split at h
  · cases h
  rename_i _ _ hmk1
  split at h
  · cases h
  split at h
  · cases h
  rename_i _ _ hmk2
  split at h
  · cases h
  rename_i _ peerList0 hmk
  split at h
  · cases h
  rename_i orgs peers hloop
  have hA3 := makeSlice_inv hmk
  have hlen : peerList0.length = (goMul config.PeerOrgs config.PeersPerOrg).toNat := by
    rw [hA3.2]; simp
  refine ⟨(makeSlice_inv hmk1).1, (makeSlice_inv hmk2).1, hA3.1, ?_⟩
  have h0 := hA3.1.1
  intro i j hi hj
  unfold forLoop at hloop
  have hstep := forLoopAux_ok_step (orgBody config)
    (fun s => s.2.length = peerList0.length)
    (fun s i s1 hs hb => by
      show s1.2.length = peerList0.length
      rw [(orgBody_inv hb).1]; exact hs)
    config.PeerOrgs.toNat 0 _ _ rfl hloop
  obtain ⟨s0, s1, hs0, hb⟩ := hstep.2 i hi
  have hb1 := (orgBody_inv hb).2 j hj
  rw [Int.zero_add, hs0, hlen] at hb1
  refine ⟨hb1.1, ?_⟩
  have := hb1.2
  omega

/-- The synthesis panics when the number of peers does not fit in an `int`. -/
theorem synthesize_overflow (config : configuration) (hG : 0 < config.PeerOrgs)
    (hP : 0 < config.PeersPerOrg)
    (hN : 9223372036854775808 ≤ config.PeerOrgs * config.PeersPerOrg)
    (allocate : Nat → Bool) (gi : genInfo) :
    synthesize allocate config ≠ .ok gi := by
  intro h
  obtain ⟨_, _, hA3, hidx⟩ := synthesize_ok_inv h
  have h0 := hA3.1
  have hL := wrap64_lt (config.PeerOrgs * config.PeersPerOrg)
  have hLdef : goMul config.PeerOrgs config.PeersPerOrg
      = wrap64 (config.PeerOrgs * config.PeersPerOrg) := rfl
  generalize hLe : goMul config.PeerOrgs config.PeersPerOrg = L at h0 hidx hLdef
  rw [← hLdef] at hL
  have hdm := Int.ediv_add_emod L config.PeersPerOrg
  have hr0 := Int.emod_nonneg L (Int.ne_of_gt hP)
  have hr1 := Int.emod_lt_of_pos L hP
  have hq0 := Int.ediv_nonneg h0 (Int.le_of_lt hP)
  have hq1 : L / config.PeersPerOrg < config.PeerOrgs :=
    Int.ediv_lt_of_lt_mul hP (by omega)
  have hqP0 : 0 ≤ (L / config.PeersPerOrg) * config.PeersPerOrg :=
    Int.mul_nonneg hq0 (Int.le_of_lt hP)
  have hqP : (L / config.PeersPerOrg) * config.PeersPerOrg = L - L % config.PeersPerOrg := by
    rw [Int.mul_comm]; omega
  have hb := hidx (L / config.PeersPerOrg).toNat (L % config.PeersPerOrg).toNat
    (by omega) (by omega)
  rw [Int.toNat_of_nonneg hq0, Int.toNat_of_nonneg hr0] at hb
  have hoff : offset config (L / config.PeersPerOrg) (L % config.PeersPerOrg) = L := by
    unfold offset goAdd goMul
    rw [hqP, wrap64_of_inRange (L - L % config.PeersPerOrg) (by omega) (by omega),
      wrap64_of_inRange _ (by omega) (by omega)]
    omega
  rw [hoff] at hb
  omega

/-! ## Indexing the closed forms -/

theorem blocks_length {α : Type} (g : Nat → Nat → α) (p : Nat) :
    ∀ n : Nat, ((List.range n).flatMap (fun (i : Nat) =>
      (List.range p).map (fun (j : Nat) => g i j))).length = n * p := by
  intro n
  induction n with
  | zero => simp
  | succ n ih =>
    rw [List.range_succ, List.flatMap_append, List.length_append, ih]
    simp [Nat.add_mul]

theorem blocks_getElem? {α : Type} (g : Nat → Nat → α) (p : Nat) :
    ∀ n i j : Nat, i < n → j < p →
      ((List.range n).flatMap (fun (i : Nat) =>
        (List.range p).map (fun (j : Nat) => g i j)))[i * p + j]? = some (g i j) := by
  intro n
  induction n with
  | zero => intro i j hi; omega
  | succ n ih =>
    intro i j hi hj
    rw [List.range_succ, List.flatMap_append]
    by_cases hin : i < n
    · have hlt : i * p + j < n * p := by
        have : (i + 1) * p ≤ n * p := Nat.mul_le_mul_right p (by omega)
        rw [Nat.add_mul, Nat.one_mul] at this
        omega
      rw [List.getElem?_append_left (by rw [blocks_length]; exact hlt)]
      exact ih i j hin hj
    · have hi2 : i = n := by omega
      subst hi2
      rw [List.getElem?_append_right (by rw [blocks_length]; omega), blocks_length]
      have : i * p + j - i * p = j := by omega
      rw [this]
      simp [List.getElem?_range hj]

theorem expectedOrderers_getElem? (config : configuration) (i : Nat)
    (hi : i < config.OrdererNodes.toNat) :
    (expectedOrderers config)[i]? = some (ordererAt config (i : Int)) := by
  unfold expectedOrderers
  rw [List.getElem?_map, List.getElem?_range hi]
  rfl

theorem expectedOrganizations_getElem? (config : configuration) (i : Nat)
    (hi : i < config.PeerOrgs.toNat) :
    (expectedOrganizations config)[i]? = some (organizationAt config (i : Int)) := by
  unfold expectedOrganizations
  rw [List.getElem?_map, List.getElem?_range hi]
  rfl

theorem expectedPeers_getElem? (config : configuration) (i j : Nat)
    (hi : i < config.PeerOrgs.toNat) (hj : j < config.PeersPerOrg.toNat) :
    (expectedPeers config)[i * config.PeersPerOrg.toNat + j]?
      = some (peerAt config (organizationAt config (i : Int)) (i : Int) (j : Int)) :=
  blocks_getElem?
    (fun i j => peerAt config (organizationAt config (i : Int)) (i : Int) (j : Int))
    config.PeersPerOrg.toNat config.PeerOrgs.toNat i j hi hj

theorem expectedPeers_length (config : configuration) :
    (expectedPeers config).length = config.PeerOrgs.toNat * config.PeersPerOrg.toNat :=
  blocks_length
    (fun i j => peerAt config (organizationAt config (i : Int)) (i : Int) (j : Int))
    config.PeersPerOrg.toNat config.PeerOrgs.toNat

theorem mem_expectedOrderers {config : configuration} {o : orderer}
    (h : o ∈ expectedOrderers config) :
    ∃ i : Nat, (i : Int) < config.OrdererNodes ∧ o = ordererAt config (i : Int) := by
  unfold expectedOrderers at h
  rw [List.mem_map] at h
  obtain ⟨i, hi, rfl⟩ := h
  rw [List.mem_range] at hi
  exact ⟨i, by omega, rfl⟩

theorem mem_expectedPeers {config : configuration} {q : peer}
    (h : q ∈ expectedPeers config) :
    ∃ i j : Nat, (i : Int) < config.PeerOrgs ∧ (j : Int) < config.PeersPerOrg ∧
      q = peerAt config (organizationAt config (i : Int)) (i : Int) (j : Int) := by
  unfold expectedPeers at h
  rw [List.mem_flatMap] at h
  obtain ⟨i, hi, hq⟩ := h
  rw [List.mem_map] at hq
  obtain ⟨j, hj, rfl⟩ := hq
  rw [List.mem_range] at hi hj
  exact ⟨i, j, by omega, by omega, rfl⟩

/-- A returning synthesis of a configuration with organizations and peers has
produced the closed form, and its three `make` calls have returned for the exact
lengths. -/
theorem synthesize_ok_eq {allocate : Nat → Bool} {config : configuration} {gi : genInfo}
    (hG : 0 < config.PeerOrgs) (hP : 0 < config.PeersPerOrg)
    (h : synthesize allocate config = .ok gi) :
    gi = expectedGenInfo config ∧
      Admits allocate sizeofOrderer config.OrdererNodes ∧
      Admits allocate sizeofOrganization config.PeerOrgs ∧
      Admits allocate sizeofPeer (config.PeerOrgs * config.PeersPerOrg) := by
  obtain ⟨hA1, hA2, hA3, _⟩ := synthesize_ok_inv h
  by_cases hN : config.PeerOrgs * config.PeersPerOrg < 9223372036854775808
  · have hpos : 0 ≤ config.PeerOrgs * config.PeersPerOrg :=
      Int.mul_nonneg (by omega) (by omega)
    have hmul : goMul config.PeerOrgs config.PeersPerOrg
        = config.PeerOrgs * config.PeersPerOrg :=
      wrap64_of_inRange _ (by omega) hN
    rw [hmul] at hA3
    have h2 := synthesize_eq allocate config hA1 hA2 (by omega) hA3
    rw [h2] at h
    injection h with h
    exact ⟨h.symm, hA1, hA2, hA3⟩
  · exact absurd h (synthesize_overflow config hG hP (by omega) allocate gi)

/-- The number of peers of a returned synthesis is at most `2^40`. -/
theorem peers_le_of_admits {allocate : Nat → Bool} {config : configuration}
    (h : Admits allocate sizeofPeer (config.PeerOrgs * config.PeersPerOrg)) :
    config.PeerOrgs * config.PeersPerOrg < 9223372036854775808 := by
  have := admits_peer_le h
  omega

theorem offset_exact (config : configuration) (i j : Int) (hi : 0 ≤ i) (hj : 0 ≤ j)
    (hiG : i < config.PeerOrgs) (hjP : j < config.PeersPerOrg)
    (hN : config.PeerOrgs * config.PeersPerOrg < 9223372036854775808) :
    offset config i j = i * config.PeersPerOrg + j ∧
      0 ≤ i * config.PeersPerOrg + j ∧
      i * config.PeersPerOrg + j < config.PeerOrgs * config.PeersPerOrg := by
  have h1 : 0 ≤ i * config.PeersPerOrg := Int.mul_nonneg hi (by omega)
  have h2 : (i + 1) * config.PeersPerOrg ≤ config.PeerOrgs * config.PeersPerOrg :=
    Int.mul_le_mul_of_nonneg_right (by omega) (by omega)
  rw [Int.add_mul, Int.one_mul] at h2
  refine ⟨?_, by omega, by omega⟩
  unfold offset goAdd goMul
  rw [wrap64_of_inRange (i * config.PeersPerOrg) (by omega) (by omega),
    wrap64_of_inRange _ (by omega) (by omega)]

/-! ## Validation -/

/-- A configuration that `loadConfig` returns has passed every check. -/
theorem loadConfig_ok {c c1 : configuration} (h : loadConfig c = .ok c1) :
    c1 = c ∧ c.DockerNS ≠ "" ∧ c.Arch ≠ "" ∧ c.Version ≠ "" ∧ 0 < c.OrdererNodes ∧
      (c.OrdererType = "solo" ∨ c.OrdererType = "kafka") ∧
      (c.OrdererType = "solo" → c.OrdererNodes = 1) ∧
      (c.DB.Provider = "goleveldb" ∨ c.DB.Provider = "CouchDB") ∧
      0 < c.PeerOrgs ∧ 0 < c.PeerOrgUsers := by
  unfold loadConfig at h
  split at h
  · cases h
  rename_i h1
  split at h
  · cases h
  rename_i h2
  split at h
  · cases h
  rename_i h3
  split at h
  · cases h
  rename_i h4
  split at h
  · cases h
  rename_i h5
  split at h
  · cases h
  rename_i h6
  split at h
  · cases h
  rename_i h7
  split at h
  · cases h
  rename_i h8
  split at h
  · cases h
  rename_i h9
  split at h
  · cases h
  injection h with h
  refine ⟨h.symm, h1, h2, h3, by omega, ?_, ?_, ?_, by omega, by omega⟩
  · by_cases hs : c.OrdererType = "solo"
    · exact Or.inl hs
    · by_cases hk : c.OrdererType = "kafka"
      · exact Or.inr hk
      · exact absurd ⟨hs, hk⟩ h5
  · intro hs
    by_contra hn
    exact h6 ⟨hs, hn⟩
  · by_cases hs : c.DB.Provider = "goleveldb"
    · exact Or.inl hs
    · by_cases hk : c.DB.Provider = "CouchDB"
      · exact Or.inr hk
      · exact absurd ⟨hs, hk⟩ h7

theorem main_of_rejected (env : Env) {c : configuration} {msg : String}
    (h : loadConfig c = .error msg) : main env c = { trace := [], exit := 1 } := by
  unfold main
  rw [h]

/-- C5. A configuration whose orderer type is `solo` with a number of orderer
nodes other than one, or whose number of peer organizations is not positive, is
rejected by `loadConfig`: `main` exits with status 1 and has made no call, so
neither the synthesis nor any pipeline step has run. -/
theorem loadConfig_rejects_counts (env : Env) (c : configuration)
    (h : (c.OrdererType = "solo" ∧ c.OrdererNodes ≠ 1) ∨ c.PeerOrgs ≤ 0) :
    (∃ msg, loadConfig c = .error msg) ∧ main env c = { trace := [], exit := 1 } := by
  cases hl : loadConfig c with
  | error msg => exact ⟨⟨msg, rfl⟩, main_of_rejected env hl⟩
  | ok c1 =>
    have hk := loadConfig_ok hl
    rcases h with ⟨hs, hn⟩ | hg
    · exact absurd (hk.2.2.2.2.2.2.1 hs) hn
    · have := hk.2.2.2.2.2.2.2.2.1
      omega

/-- C5, at the two inputs the specification names: `solo` with two orderer
nodes, and no peer organization. -/
theorem loadConfig_rejects_counts_witness :
    ((∃ msg, loadConfig cfgSoloTwo = .error msg)
        ∧ main envOk cfgSoloTwo = { trace := [], exit := 1 })
      ∧ ((∃ msg, loadConfig cfgNoOrgs = .error msg)
        ∧ main envOk cfgNoOrgs = { trace := [], exit := 1 }) :=
  ⟨loadConfig_rejects_counts envOk cfgSoloTwo (Or.inl ⟨by decide, by decide⟩),
   loadConfig_rejects_counts envOk cfgNoOrgs (Or.inr (by decide))⟩

/-- C3. `loadConfig` accepts a configuration with `peersPerOrganization: 0`:
the check of line 188 reads `PeerOrgUsers`, and no check reads `PeersPerOrg`.
`main` then runs the whole pipeline on a topology without peers. -/
theorem loadConfig_accepts_zero_peers :
    cfgNoPeers.PeersPerOrg ≤ 0 ∧ loadConfig cfgNoPeers = .ok cfgNoPeers ∧
      (main envOk cfgNoPeers).exit = 0 ∧
      Step.generateGenesisBlock ∈ (main envOk cfgNoPeers).trace ∧
      (synthesize envOk.allocate cfgNoPeers).toOption.map (fun gi => gi.Peers) = some [] := by
  refine ⟨by decide, rfl, by decide, by decide, by decide⟩

/-- C4. `loadConfig` rejects a configuration with `usersPerOrganization: 0`
that satisfies every other invariant: the check of line 188 applies `<= 0` to
`PeerOrgUsers`, under the message of the peers-per-organization check, and the
check of line 193 (`< 0`, "must be non negative") is never reached. -/
theorem loadConfig_rejects_zero_users :
    cfgNoUsers.PeerOrgUsers = 0 ∧
      (cfgNoUsers.DockerNS ≠ "" ∧ cfgNoUsers.Arch ≠ "" ∧ cfgNoUsers.Version ≠ "" ∧
        0 < cfgNoUsers.OrdererNodes ∧ cfgNoUsers.OrdererType = "solo" ∧
        cfgNoUsers.OrdererNodes = 1 ∧ cfgNoUsers.DB.Provider = "CouchDB" ∧
        0 < cfgNoUsers.PeerOrgs ∧ 0 < cfgNoUsers.PeersPerOrg) ∧
      loadConfig cfgNoUsers
        = .error "Number of peer per organziation must be greater than 0" ∧
      main envOk cfgNoUsers = { trace := [], exit := 1 } := by
  refine ⟨by decide, by decide, rfl, by decide⟩

/-- C10. A configuration with `peersPerOrganization: -1` passes every check
of `loadConfig`, and the synthesis then panics in `make([]peer, -1)`: `main`
ends with exit status 2 at the synthesis. -/
theorem validated_synthesis_panics :
    loadConfig cfgNegPeers = .ok cfgNegPeers ∧
      goMul cfgNegPeers.PeerOrgs cfgNegPeers.PeersPerOrg = -1 ∧
      synthesize envOk.allocate cfgNegPeers = .error "panic: runtime error: makeslice: len out of range" ∧
      (main envOk cfgNegPeers).exit = 2 ∧
      (main envOk cfgNegPeers).trace.getLast? = some Step.synthesize := by
  refine ⟨rfl, by decide, rfl, by decide, by decide⟩

/-! ## The pipeline -/

/-- C1. In a run where creating `configtx.yaml` fails and every other call
succeeds, `main` drops the error returned by `execTemplate` and goes on to call
`generateGenesisBlock` and `generateChannelConfig`; the process exits with
status 0. -/
theorem failed_render_does_not_abort :
    (∀ gi, ∃ e, envConfigtxFails.execTemplate "configtx.yaml" gi = .error e) ∧
      main envConfigtxFails sampleConfig =
        { trace := [.mkdirGenesis, .mkdirChannels,
            .loadTemplate "crypto-config-template.yaml",
            .execTemplateWithConfig "crypto-config.yaml", .generateCryptoMaterial,
            .loadTemplate "configtx-template.yaml",
            .loadTemplate "docker-compose-template.yaml", .synthesize,
            .execTemplate "configtx.yaml", .execTemplate "docker-compose.yaml",
            .generateGenesisBlock, .generateChannelConfig,
            .loadTemplate "pull-docker-images-template.yaml",
            .execTemplateWithConfig "pull-docker-images.sh", .chmod],
          exit := 0 } := by
  refine ⟨fun gi => ⟨_, rfl⟩, by decide⟩

/-! ## The header of `genInfo` -/

/-- C9. The `genInfo` value built for the sample configuration, whose domain
is `example.com`, has an empty `Domain`: the literal of lines 280-293 does not
set the field. -/
theorem genInfo_domain_not_copied :
    sampleConfig.Domain = "example.com" ∧
      (synthesize envOk.allocate sampleConfig).toOption.map
          (fun gi => (gi.Domain, gi.Name, gi.OrdererOrganization))
        = some ("", "samplenet", { Name := "ordererOrg", Domain := "example.com" }) := by
  refine ⟨rfl, by decide⟩

/-! ## Names and order -/

theorem goAdd_pred_one (k : Nat) (h1 : 1 ≤ k) (h2 : (k : Int) < 9223372036854775808) :
    goAdd ((k - 1 : Nat) : Int) 1 = (k : Int) := by
  unfold goAdd
  rw [wrap64_of_inRange _ (by omega) (by omega)]
  omega

theorem toString_natCast (k : Nat) : toString ((k : Nat) : Int) = toString k := rfl

theorem peerName_assoc (a b d : String) :
    a ++ "." ++ ("org" ++ b ++ "." ++ d) = a ++ ".org" ++ b ++ "." ++ d := by
  have h : "." ++ "org" = ".org" := by decide
  rw [← h]
  simp only [String.append_assoc]

theorem le_of_mul_lt (a b : Int) (ha : 0 < a) (hb : 0 < b)
    (h : a * b < 9223372036854775808) :
    a < 9223372036854775808 ∧ b < 9223372036854775808 := by
  have h1 : a * 1 ≤ a * b := Int.mul_le_mul_of_nonneg_left (by omega) (by omega)
  have h2 : 1 * b ≤ a * b := Int.mul_le_mul_of_nonneg_right (by omega) (by omega)
  rw [Int.mul_one] at h1
  rw [Int.one_mul] at h2
  exact ⟨by omega, by omega⟩

/-- C6. In the topology synthesized from a valid configuration, the orderer
at list index `i-1` is named `orderer<i>.<domain>`, the organization at index
`i-1` has name `org<i>` and domain `org<i>.<domain>`, and the peer at list index
`(i-1)*peersPerOrg + (j-1)` is named `peer<j>.org<i>.<domain>` and has that
organization as its `Organization` (organization-major, peer-minor order).
`hInt` says that `OrdererNodes` is a Go `int`. -/
theorem naming_and_order (allocate : Nat → Bool) (c : configuration) (gi : genInfo)
    (hInt : c.OrdererNodes < 9223372036854775808)
    (hO : 0 < c.OrdererNodes) (hG : 0 < c.PeerOrgs) (hP : 0 < c.PeersPerOrg)
    (h : synthesize allocate c = .ok gi) :
    (∀ i : Nat, 1 ≤ i → (i : Int) ≤ c.OrdererNodes →
      ∃ o, gi.Orderers[i - 1]? = some o ∧
        o.Name = "orderer" ++ toString i ++ "." ++ c.Domain) ∧
    (∀ i : Nat, 1 ≤ i → (i : Int) ≤ c.PeerOrgs →
      ∃ g, gi.PeerOrganizations[i - 1]? = some g ∧
        g.Name = "org" ++ toString i ∧
        g.Domain = "org" ++ toString i ++ "." ++ c.Domain ∧
        ∀ j : Nat, 1 ≤ j → (j : Int) ≤ c.PeersPerOrg →
          ∃ q, gi.Peers[(i - 1) * c.PeersPerOrg.toNat + (j - 1)]? = some q ∧
            q.Name = "peer" ++ toString j ++ ".org" ++ toString i ++ "." ++ c.Domain ∧
            q.Organization = g) := by
  obtain ⟨hgi, _, _, hA3⟩ := synthesize_ok_eq hG hP h
  obtain ⟨hGlt, hPlt⟩ := le_of_mul_lt _ _ hG hP (peers_le_of_admits hA3)
  subst hgi
  refine ⟨?_, ?_⟩
  · intro i hi1 hi2
    refine ⟨ordererAt c ((i - 1 : Nat) : Int), ?_, ?_⟩
    · exact expectedOrderers_getElem? c (i - 1) (by omega)
    · show "orderer" ++ toString (goAdd ((i - 1 : Nat) : Int) 1) ++ "." ++ c.Domain = _
      rw [goAdd_pred_one i hi1 (by omega), toString_natCast]
  · intro i hi1 hi2
    have hname : toString (goAdd ((i - 1 : Nat) : Int) 1) = toString i := by
      rw [goAdd_pred_one i hi1 (by omega), toString_natCast]
    refine ⟨organizationAt c ((i - 1 : Nat) : Int), ?_, ?_, ?_, ?_⟩
    · exact expectedOrganizations_getElem? c (i - 1) (by omega)
    · show "org" ++ toString (goAdd ((i - 1 : Nat) : Int) 1) = _
      rw [hname]
    · show "org" ++ toString (goAdd ((i - 1 : Nat) : Int) 1) ++ "." ++ c.Domain = _
      rw [hname]
    · intro j hj1 hj2
      refine ⟨peerAt c (organizationAt c ((i - 1 : Nat) : Int)) ((i - 1 : Nat) : Int)
        ((j - 1 : Nat) : Int), ?_, ?_, rfl⟩
      · exact expectedPeers_getElem? c (i - 1) (j - 1) (by omega) (by omega)
      · show "peer" ++ toString (goAdd ((j - 1 : Nat) : Int) 1) ++ "."
            ++ ("org" ++ toString (goAdd ((i - 1 : Nat) : Int) 1) ++ "." ++ c.Domain) = _
        rw [hname, goAdd_pred_one j hj1 (by omega), toString_natCast, peerName_assoc]

/-- C6, at the example of the specification: one orderer, two organizations
of one peer, domain `example.com`. -/
theorem naming_and_order_witness :
    (sampleConfig.OrdererNodes < 9223372036854775808 ∧ 0 < sampleConfig.OrdererNodes ∧
      0 < sampleConfig.PeerOrgs ∧ 0 < sampleConfig.PeersPerOrg ∧
      synthesize envOk.allocate sampleConfig = .ok (expectedGenInfo sampleConfig)) ∧
    (∃ o, (expectedGenInfo sampleConfig).Orderers[0]? = some o ∧
      o.Name = "orderer1.example.com") ∧
    (∃ g, (expectedGenInfo sampleConfig).PeerOrganizations[1]? = some g ∧
      g.Name = "org2" ∧ g.Domain = "org2.example.com" ∧
      ∃ q, (expectedGenInfo sampleConfig).Peers[1]? = some q ∧
        q.Name = "peer1.org2.example.com" ∧ q.Organization = g) := by
  have H := naming_and_order envOk.allocate sampleConfig (expectedGenInfo sampleConfig)
    (by decide) (by decide) (by decide) (by decide) rfl
  refine ⟨⟨by decide, by decide, by decide, by decide, rfl⟩, H.1 1 (by decide) (by decide), ?_⟩
  obtain ⟨g, hg1, hg2, hg3, hq⟩ := H.2 2 (by decide) (by decide)
  exact ⟨g, hg1, hg2, hg3, hq 1 (by decide) (by decide)⟩

/-! ## Ports -/

theorem wrap64_add_wrap64 (a b : Int) : wrap64 (a + wrap64 b) = wrap64 (a + b) := by
  unfold wrap64
  omega

theorem goAdd_goMul_const (a m x : Int) : goAdd a (goMul m x) = wrap64 (a + m * x) := by
  unfold goAdd goMul
  exact wrap64_add_wrap64 a (m * x)

/-- The value of Go's `a + b` for two `int`s whose exact sum is not negative
beyond the range. -/
theorem goAdd_cases (a b : Int) (h1 : -9223372036854775808 ≤ a + b)
    (h2 : a + b < 27670116110564327424) :
    goAdd a b = if a + b < 9223372036854775808 then a + b
      else a + b - 18446744073709551616 := by
  unfold goAdd wrap64
  split <;> omega

/-- The ports of the orderer written at index `i` of a list that `make` has
allocated. -/
theorem ordererAt_port (c : configuration) (i : Int) (h0 : 0 ≤ i) (h1 : i < 4398046511104) :
    (ordererAt c i).Port = 7050 + 100 * i := by
  show goAdd 7050 (goMul 100 i) = _
  rw [goAdd_goMul_const, wrap64_of_inRange _ (by omega) (by omega)]

/-- The ports of the peer written at offset `k = i*PeersPerOrg + j` of a list
that `make` has allocated. -/
theorem peerAt_ports (c : configuration) (org : organization) (i j k : Int)
    (hoff : offset c i j = k) (h0 : 0 ≤ k) (h1 : k < 1099511627776) :
    (peerAt c org i j).Port = 7051 + 10 * k ∧ (peerAt c org i j).EventPort = 7053 + 10 * k ∧
      (peerAt c org i j).DB.Port = goAdd c.DB.HostPort k := by
  refine ⟨?_, ?_, ?_⟩
  · show goAdd 7051 (goMul 10 (offset c i j)) = _
    rw [hoff, goAdd_goMul_const, wrap64_of_inRange _ (by omega) (by omega)]
  · show goAdd 7053 (goMul 10 (offset c i j)) = _
    rw [hoff, goAdd_goMul_const, wrap64_of_inRange _ (by omega) (by omega)]
  · show goAdd c.DB.HostPort (offset c i j) = _
    rw [hoff]

/-- C7 (as amended). In the topology synthesized from a valid configuration,
the orderer at list index `i` has `Port = 7050 + 100*i` and
`ContainerPort = 7050`; the peer at list index `k = i*peersPerOrg + j` has
`Port = 7051 + 10*k` and `EventPort = 7053 + 10*k`, and its `DB.Port` is
`DB.HostPort + k` in Go's 64-bit `int` arithmetic: `DB.HostPort + k` when that is
below `2^63`, and `DB.HostPort + k - 2^64` otherwise; every peer has
`ContainerPort = 7051`, `ContainerEventPort = 7053` and
`DB.ContainerPort = config.DB.Port`.  `hH` says that `DB.HostPort` is a Go `int`. -/
theorem port_arithmetic (allocate : Nat → Bool) (c : configuration) (gi : genInfo)
    (hH : -9223372036854775808 ≤ c.DB.HostPort ∧ c.DB.HostPort < 9223372036854775808)
    (hO : 0 < c.OrdererNodes) (hG : 0 < c.PeerOrgs) (hP : 0 < c.PeersPerOrg)
    (h : synthesize allocate c = .ok gi) :
    (∀ i : Nat, (i : Int) < c.OrdererNodes →
      ∃ o, gi.Orderers[i]? = some o ∧
        o.Port = 7050 + 100 * (i : Int) ∧ o.ContainerPort = 7050) ∧
    (∀ i j : Nat, (i : Int) < c.PeerOrgs → (j : Int) < c.PeersPerOrg →
      ∃ q, gi.Peers[i * c.PeersPerOrg.toNat + j]? = some q ∧
        ((i * c.PeersPerOrg.toNat + j : Nat) : Int) = (i : Int) * c.PeersPerOrg + (j : Int) ∧
        q.Port = 7051 + 10 * ((i : Int) * c.PeersPerOrg + (j : Int)) ∧
        q.EventPort = 7053 + 10 * ((i : Int) * c.PeersPerOrg + (j : Int)) ∧
        q.DB.Port =
          (if c.DB.HostPort + ((i : Int) * c.PeersPerOrg + (j : Int)) < 9223372036854775808
            then c.DB.HostPort + ((i : Int) * c.PeersPerOrg + (j : Int))
            else c.DB.HostPort + ((i : Int) * c.PeersPerOrg + (j : Int))
              - 18446744073709551616) ∧
        q.ContainerPort = 7051 ∧ q.ContainerEventPort = 7053 ∧
        q.DB.ContainerPort = c.DB.Port) := by
  obtain ⟨hgi, hA1, _, hA3⟩ := synthesize_ok_eq hG hP h
  have hN := peers_le_of_admits hA3
  have hNle := admits_peer_le hA3
  have hOle := admits_orderer_le hA1
  subst hgi
  refine ⟨?_, ?_⟩
  · intro i hi
    exact ⟨ordererAt c (i : Int), expectedOrderers_getElem? c i (by omega),
      ordererAt_port c (i : Int) (by omega) (by omega), rfl⟩
  · intro i j hi hj
    have hoff := offset_exact c (i : Int) (j : Int) (by omega) (by omega) hi hj hN
    have hk : ((i * c.PeersPerOrg.toNat + j : Nat) : Int)
        = (i : Int) * c.PeersPerOrg + (j : Int) := by
      push_cast
      rw [Int.toNat_of_nonneg (by omega)]
    have hp := peerAt_ports c (organizationAt c (i : Int)) (i : Int) (j : Int) _ hoff.1
      hoff.2.1 (by omega)
    refine ⟨peerAt c (organizationAt c (i : Int)) (i : Int) (j : Int),
      expectedPeers_getElem? c i j (by omega) (by omega), hk, hp.1, hp.2.1, ?_,
      rfl, rfl, rfl⟩
    rw [hp.2.2]
    exact goAdd_cases _ _ (by omega) (by omega)

/-- C7 (as amended), at the sample configuration: the second peer
(organization index 1, peer index 0, list index 1) has ports 7061, 7063 and
5985. -/
theorem port_arithmetic_witness :
    ((-9223372036854775808 ≤ sampleConfig.DB.HostPort ∧
        sampleConfig.DB.HostPort < 9223372036854775808) ∧
      0 < sampleConfig.OrdererNodes ∧ 0 < sampleConfig.PeerOrgs ∧
      0 < sampleConfig.PeersPerOrg ∧
      synthesize envOk.allocate sampleConfig = .ok (expectedGenInfo sampleConfig)) ∧
    (∃ o, (expectedGenInfo sampleConfig).Orderers[0]? = some o ∧
      o.Port = 7050 ∧ o.ContainerPort = 7050) ∧
    (∃ q, (expectedGenInfo sampleConfig).Peers[1]? = some q ∧
      q.Port = 7061 ∧ q.EventPort = 7063 ∧ q.DB.Port = 5985 ∧
      q.ContainerPort = 7051 ∧ q.ContainerEventPort = 7053 ∧ q.DB.ContainerPort = 5984) := by
  have H := port_arithmetic envOk.allocate sampleConfig (expectedGenInfo sampleConfig)
    (by decide) (by decide) (by decide) (by decide) rfl
  refine ⟨⟨by decide, by decide, by decide, by decide, rfl⟩, ?_, ?_⟩
  · obtain ⟨o, ho, hp, hc⟩ := H.1 0 (by decide)
    exact ⟨o, ho, hp, hc⟩
  · obtain ⟨q, hq, _, hp, he, hdb, h1, h2, h3⟩ := H.2 1 0 (by decide) (by decide)
    exact ⟨q, hq, hp, he, hdb, h1, h2, h3⟩

/-- C7, as stated, fails: with `DB.HostPort = 2^63 - 1` the configuration is
valid and the topology is built, but the sum `DB.HostPort + 1` of the second peer
(list index 1) wraps, and its `DB.Port` is `-2^63`. -/
theorem storage_port_wraps :
    (0 < cfgHostPortMax.OrdererNodes ∧ 0 < cfgHostPortMax.PeerOrgs ∧
      0 < cfgHostPortMax.PeersPerOrg) ∧
    ∃ gi, synthesize envOk.allocate cfgHostPortMax = .ok gi ∧
      ∃ q, gi.Peers[1]? = some q ∧ q.DB.Port = -9223372036854775808 ∧
        q.DB.Port ≠ cfgHostPortMax.DB.HostPort + 1 := by
  refine ⟨⟨by decide, by decide, by decide⟩, expectedGenInfo cfgHostPortMax, rfl, ?_⟩
  decide

/-! ## Totality of the synthesis -/

theorem peerAt_ne_zero (c : configuration) (org : organization) (i j : Int) :
    peerAt c org i j ≠ peer.zero := by
  intro h
  have h1 : (peerAt c org i j).ContainerPort = peer.zero.ContainerPort := by rw [h]
  have h2 : (7051 : Int) = 0 := h1
  omega

theorem ediv_emod_unique (P i j : Int) (hj0 : 0 ≤ j) (hjP : j < P) :
    (i * P + j) / P = i ∧ (i * P + j) % P = j := by
  have hP : P ≠ 0 := by omega
  constructor
  · rw [Int.add_comm, Int.add_mul_ediv_right _ _ hP, Int.ediv_eq_zero_of_lt hj0 hjP]
    omega
  · rw [Int.add_comm, Int.add_mul_emod_self, Int.emod_eq_of_lt hj0 hjP]

/-- C8 (as amended). For a configuration with `ordererNodes > 0`,
`peerOrgs > 0`, `peersPerOrg > 0` for which the three `make` calls return (each
length times the element size is within the allocation limit of the runtime,
which keeps `peerOrgs*peersPerOrg` at most `2^40`, and the system provides the
memory), the synthesis returns: the length given to `make` is the exact product,
every write index `offset i j` lies inside `peerList`, every slot is the index of
exactly one iteration `(i, j)`, no slot keeps the zero value, and the result has
`ordererNodes` orderers, `peerOrgs` organizations and `peerOrgs*peersPerOrg`
peers.  Conversely the three `make` calls have returned whenever the synthesis
returns. -/
theorem synthesis_total (allocate : Nat → Bool) (c : configuration)
    (hO : 0 < c.OrdererNodes) (hG : 0 < c.PeerOrgs) (hP : 0 < c.PeersPerOrg) :
    (Admits allocate sizeofOrderer c.OrdererNodes →
      Admits allocate sizeofOrganization c.PeerOrgs →
      Admits allocate sizeofPeer (c.PeerOrgs * c.PeersPerOrg) →
      ∃ gi, synthesize allocate c = .ok gi ∧
        (gi.Orderers.length : Int) = c.OrdererNodes ∧
        (gi.PeerOrganizations.length : Int) = c.PeerOrgs ∧
        (gi.Peers.length : Int) = c.PeerOrgs * c.PeersPerOrg ∧
        goMul c.PeerOrgs c.PeersPerOrg = c.PeerOrgs * c.PeersPerOrg ∧
        (∀ i j : Int, 0 ≤ i → i < c.PeerOrgs → 0 ≤ j → j < c.PeersPerOrg →
          0 ≤ offset c i j ∧ offset c i j < c.PeerOrgs * c.PeersPerOrg) ∧
        (∀ k : Int, 0 ≤ k → k < c.PeerOrgs * c.PeersPerOrg →
          ∃! ij : Int × Int,
            (0 ≤ ij.1 ∧ ij.1 < c.PeerOrgs ∧ 0 ≤ ij.2 ∧ ij.2 < c.PeersPerOrg) ∧
              offset c ij.1 ij.2 = k) ∧
        (∀ q ∈ gi.Peers, q ≠ peer.zero)) ∧
    (∀ gi, synthesize allocate c = .ok gi →
      Admits allocate sizeofOrderer c.OrdererNodes ∧
      Admits allocate sizeofOrganization c.PeerOrgs ∧
      Admits allocate sizeofPeer (c.PeerOrgs * c.PeersPerOrg)) := by
  refine ⟨?_, fun gi h => (synthesize_ok_eq hG hP h).2⟩
  intro hA1 hA2 hA3
  have hN := peers_le_of_admits hA3
  have hpos : 0 ≤ c.PeerOrgs * c.PeersPerOrg := Int.mul_nonneg (by omega) (by omega)
  refine ⟨expectedGenInfo c, synthesize_eq allocate c hA1 hA2 (by omega) hA3,
    ?_, ?_, ?_, ?_, ?_, ?_, ?_⟩
  · show ((expectedOrderers c).length : Int) = _
    unfold expectedOrderers
    rw [List.length_map, List.length_range, Int.toNat_of_nonneg (by omega)]
  · show ((expectedOrganizations c).length : Int) = _
    unfold expectedOrganizations
    rw [List.length_map, List.length_range, Int.toNat_of_nonneg (by omega)]
  · show ((expectedPeers c).length : Int) = _
    rw [expectedPeers_length]
    push_cast
    rw [Int.toNat_of_nonneg (by omega), Int.toNat_of_nonneg (by omega)]
  · exact wrap64_of_inRange _ (by omega) hN
  · intro i j hi0 hi hj0 hj
    have hoff := offset_exact c i j hi0 hj0 hi hj hN
    rw [hoff.1]
    exact hoff.2
  · intro k hk0 hk
    have hr0 := Int.emod_nonneg k (Int.ne_of_gt hP)
    have hr1 := Int.emod_lt_of_pos k hP
    have hq0 := Int.ediv_nonneg hk0 (Int.le_of_lt hP)
    have hq1 : k / c.PeersPerOrg < c.PeerOrgs := Int.ediv_lt_of_lt_mul hP hk
    have hdm := Int.ediv_add_emod k c.PeersPerOrg
    refine ⟨(k / c.PeersPerOrg, k % c.PeersPerOrg), ⟨⟨hq0, hq1, hr0, hr1⟩, ?_⟩, ?_⟩
    · show offset c (k / c.PeersPerOrg) (k % c.PeersPerOrg) = k
      rw [(offset_exact c _ _ hq0 hr0 hq1 hr1 hN).1, Int.mul_comm]
      exact hdm
    · rintro ⟨i, j⟩ ⟨⟨hi0, hi, hj0, hj⟩, hoff⟩
      have hoff2 : offset c i j = k := hoff
      rw [(offset_exact c i j hi0 hj0 hi hj hN).1] at hoff2
      have hu := ediv_emod_unique c.PeersPerOrg i j hj0 hj
      rw [hoff2] at hu
      rw [← hu.1, ← hu.2]
  · intro q hq
    obtain ⟨i, j, _, _, rfl⟩ := mem_expectedPeers hq
    exact peerAt_ne_zero c _ _ _

theorem admits_sample :
    Admits envOk.allocate sizeofOrderer sampleConfig.OrdererNodes ∧
      Admits envOk.allocate sizeofOrganization sampleConfig.PeerOrgs ∧
      Admits envOk.allocate sizeofPeer (sampleConfig.PeerOrgs * sampleConfig.PeersPerOrg) := by
  refine ⟨⟨by decide, by decide, Or.inr rfl⟩, ⟨by decide, by decide, Or.inr rfl⟩,
    ⟨by decide, by decide, Or.inr rfl⟩⟩

/-- C8 (as amended), at the sample configuration. -/
theorem synthesis_total_witness :
    (0 < sampleConfig.OrdererNodes ∧ 0 < sampleConfig.PeerOrgs ∧
      0 < sampleConfig.PeersPerOrg ∧
      Admits envOk.allocate sizeofOrderer sampleConfig.OrdererNodes ∧
      Admits envOk.allocate sizeofOrganization sampleConfig.PeerOrgs ∧
      Admits envOk.allocate sizeofPeer (sampleConfig.PeerOrgs * sampleConfig.PeersPerOrg)) ∧
    ∃ gi, synthesize envOk.allocate sampleConfig = .ok gi ∧
      (gi.Orderers.length : Int) = 1 ∧
      (gi.PeerOrganizations.length : Int) = 2 ∧ (gi.Peers.length : Int) = 2 ∧
      ∀ q ∈ gi.Peers, q ≠ peer.zero := by
  obtain ⟨gi, h, h1, h2, h3, _, _, _, h7⟩ :=
    (synthesis_total envOk.allocate sampleConfig (by decide) (by decide) (by decide)).1
      admits_sample.1 admits_sample.2.1 admits_sample.2.2
  exact ⟨⟨by decide, by decide, by decide, admits_sample⟩, gi, h, h1, h2, h3, h7⟩

/-- C8, as stated, fails: four organizations of `2^62` peers satisfy the
three invariants, the length `4 * 2^62` given to `make` wraps to `0`, and the
first write, at index `0`, is outside the empty `peerList`. -/
theorem synthesis_fails_on_overflow :
    (0 < cfgOverflow.OrdererNodes ∧ 0 < cfgOverflow.PeerOrgs ∧
      0 < cfgOverflow.PeersPerOrg) ∧
    goMul cfgOverflow.PeerOrgs cfgOverflow.PeersPerOrg = 0 ∧
    offset cfgOverflow 0 0 = 0 ∧
    synthesize envOk.allocate cfgOverflow
      = .error "panic: runtime error: index out of range" := by
  refine ⟨⟨by decide, by decide, by decide⟩, by decide, by decide, rfl⟩

/-! ## Port disjointness -/

/-- The orderer ports of the closed form are the values `7050 + 100*i`,
`0 ≤ i < OrdererNodes`. -/
theorem expectedOrderers_ports {allocate : Nat → Bool} (c : configuration)
    (hA1 : Admits allocate sizeofOrderer c.OrdererNodes) :
    (∀ o ∈ expectedOrderers c, ∃ i : Int, 0 ≤ i ∧ i < c.OrdererNodes ∧
      o.Port = 7050 + 100 * i) ∧
    (∀ i : Int, 0 ≤ i → i < c.OrdererNodes →
      ∃ o ∈ expectedOrderers c, o.Port = 7050 + 100 * i) := by
  have hle := admits_orderer_le hA1
  refine ⟨?_, ?_⟩
  · intro o ho
    obtain ⟨i, hi, rfl⟩ := mem_expectedOrderers ho
    exact ⟨(i : Int), by omega, hi, ordererAt_port c (i : Int) (by omega) (by omega)⟩
  · intro i hi0 hi
    refine ⟨ordererAt c i, ?_, ordererAt_port c i hi0 (by omega)⟩
    have hmem := List.getElem?_mem (expectedOrderers_getElem? c i.toNat (by omega))
    rw [Int.toNat_of_nonneg hi0] at hmem
    exact hmem

/-- The peer ports of the closed form are the values `7051 + 10*k`,
`7053 + 10*k` and `DB.HostPort + k` (as a Go sum), `0 ≤ k < PeerOrgs*PeersPerOrg`. -/
theorem expectedPeers_ports {allocate : Nat → Bool} (c : configuration)
    (hG : 0 < c.PeerOrgs) (hP : 0 < c.PeersPerOrg)
    (hA3 : Admits allocate sizeofPeer (c.PeerOrgs * c.PeersPerOrg)) :
    (∀ q ∈ expectedPeers c, ∃ k : Int, 0 ≤ k ∧ k < c.PeerOrgs * c.PeersPerOrg ∧
      q.Port = 7051 + 10 * k ∧ q.EventPort = 7053 + 10 * k ∧
      q.DB.Port = goAdd c.DB.HostPort k) ∧
    (∀ k : Int, 0 ≤ k → k < c.PeerOrgs * c.PeersPerOrg →
      ∃ q ∈ expectedPeers c, q.Port = 7051 + 10 * k ∧ q.EventPort = 7053 + 10 * k ∧
        q.DB.Port = goAdd c.DB.HostPort k) := by
  have hN := peers_le_of_admits hA3
  have hle := admits_peer_le hA3
  refine ⟨?_, ?_⟩
  · intro q hq
    obtain ⟨i, j, hi, hj, rfl⟩ := mem_expectedPeers hq
    have hoff := offset_exact c (i : Int) (j : Int) (by omega) (by omega) hi hj hN
    exact ⟨(i : Int) * c.PeersPerOrg + (j : Int), hoff.2.1, hoff.2.2,
      peerAt_ports c _ _ _ _ hoff.1 hoff.2.1 (by omega)⟩
  · intro k hk0 hk
    have hr0 := Int.emod_nonneg k (Int.ne_of_gt hP)
    have hr1 := Int.emod_lt_of_pos k hP
    have hq0 := Int.ediv_nonneg hk0 (Int.le_of_lt hP)
    have hq1 : k / c.PeersPerOrg < c.PeerOrgs := Int.ediv_lt_of_lt_mul hP hk
    have hdm := Int.ediv_add_emod k c.PeersPerOrg
    have hoff : offset c (k / c.PeersPerOrg) (k % c.PeersPerOrg) = k := by
      rw [(offset_exact c _ _ hq0 hr0 hq1 hr1 hN).1, Int.mul_comm]
      exact hdm
    refine ⟨peerAt c (organizationAt c (k / c.PeersPerOrg)) (k / c.PeersPerOrg)
      (k % c.PeersPerOrg), ?_, peerAt_ports c _ _ _ _ hoff hk0 (by omega)⟩
    have hmem := List.getElem?_mem (expectedPeers_getElem? c (k / c.PeersPerOrg).toNat
      (k % c.PeersPerOrg).toNat (by omega) (by omega))
    rw [Int.toNat_of_nonneg hq0, Int.toNat_of_nonneg hr0] at hmem
    exact hmem

/-- C2 (as amended). In the topology synthesized from a configuration with
`peerOrgs > 0` and `peersPerOrg > 0` (a returned synthesis has `ordererNodes ≥ 0`)
the orderer `Port`, peer `Port` and peer `EventPort` values are pairwise
disjoint.  The storage `DB.Port` values are disjoint from these three sets
exactly when no Go sum `DB.HostPort + k`, `k < peerOrgs*peersPerOrg`, is one of
the values `7050 + 100*i` (`i < ordererNodes`), `7051 + 10*m` or `7053 + 10*m`
(`m < peerOrgs*peersPerOrg`); this holds in particular when the storage block
lies below 7050, and when it lies above the last orderer port and the last event
port. -/
theorem ports_disjoint (allocate : Nat → Bool) (c : configuration) (gi : genInfo)
    (hG : 0 < c.PeerOrgs) (hP : 0 < c.PeersPerOrg)
    (h : synthesize allocate c = .ok gi) :
    (∀ o ∈ gi.Orderers, ∀ q ∈ gi.Peers, o.Port ≠ q.Port ∧ o.Port ≠ q.EventPort) ∧
    (∀ q ∈ gi.Peers, ∀ r ∈ gi.Peers, q.Port ≠ r.EventPort) ∧
    ((∀ q ∈ gi.Peers, (∀ o ∈ gi.Orderers, q.DB.Port ≠ o.Port) ∧
        ∀ r ∈ gi.Peers, q.DB.Port ≠ r.Port ∧ q.DB.Port ≠ r.EventPort) ↔
      ∀ k : Int, 0 ≤ k → k < c.PeerOrgs * c.PeersPerOrg →
        (∀ i : Int, 0 ≤ i → i < c.OrdererNodes →
          goAdd c.DB.HostPort k ≠ 7050 + 100 * i) ∧
        (∀ m : Int, 0 ≤ m → m < c.PeerOrgs * c.PeersPerOrg →
          goAdd c.DB.HostPort k ≠ 7051 + 10 * m ∧
          goAdd c.DB.HostPort k ≠ 7053 + 10 * m)) ∧
    (-9223372036854775808 ≤ c.DB.HostPort →
      (c.DB.HostPort + c.PeerOrgs * c.PeersPerOrg ≤ 7050 ∨
        (7050 + 100 * (c.OrdererNodes - 1) < c.DB.HostPort ∧
          7053 + 10 * (c.PeerOrgs * c.PeersPerOrg - 1) < c.DB.HostPort ∧
          c.DB.HostPort + c.PeerOrgs * c.PeersPerOrg ≤ 9223372036854775808)) →
      ∀ q ∈ gi.Peers, (∀ o ∈ gi.Orderers, q.DB.Port ≠ o.Port) ∧
        ∀ r ∈ gi.Peers, q.DB.Port ≠ r.Port ∧ q.DB.Port ≠ r.EventPort) := by
  obtain ⟨hgi, hA1, _, hA3⟩ := synthesize_ok_eq hG hP h
  subst hgi
  obtain ⟨hord, hordAll⟩ := expectedOrderers_ports c hA1
  obtain ⟨hports, hportsAll⟩ := expectedPeers_ports c hG hP hA3
  have hiff : (∀ q ∈ expectedPeers c, (∀ o ∈ expectedOrderers c, q.DB.Port ≠ o.Port) ∧
        ∀ r ∈ expectedPeers c, q.DB.Port ≠ r.Port ∧ q.DB.Port ≠ r.EventPort) ↔
      ∀ k : Int, 0 ≤ k → k < c.PeerOrgs * c.PeersPerOrg →
        (∀ i : Int, 0 ≤ i → i < c.OrdererNodes →
          goAdd c.DB.HostPort k ≠ 7050 + 100 * i) ∧
        (∀ m : Int, 0 ≤ m → m < c.PeerOrgs * c.PeersPerOrg →
          goAdd c.DB.HostPort k ≠ 7051 + 10 * m ∧
          goAdd c.DB.HostPort k ≠ 7053 + 10 * m) := by
    constructor
    · intro hd k hk0 hk
      obtain ⟨q, hq, _, _, hqd⟩ := hportsAll k hk0 hk
      refine ⟨?_, ?_⟩
      · intro i hi0 hi
        obtain ⟨o, ho, hop⟩ := hordAll i hi0 hi
        rw [← hqd, ← hop]
        exact (hd q hq).1 o ho
      · intro m hm0 hm
        obtain ⟨r, hr, hrp, hre, _⟩ := hportsAll m hm0 hm
        rw [← hqd, ← hrp, ← hre]
        exact (hd q hq).2 r hr
    · intro ha q hq
      obtain ⟨k, hk0, hk, _, _, hqd⟩ := hports q hq
      refine ⟨?_, ?_⟩
      · intro o ho
        obtain ⟨i, hi0, hi, hop⟩ := hord o ho
        rw [hqd, hop]
        exact (ha k hk0 hk).1 i hi0 hi
      · intro r hr
        obtain ⟨m, hm0, hm, hrp, hre, _⟩ := hports r hr
        rw [hqd, hrp, hre]
        exact (ha k hk0 hk).2 m hm0 hm
  refine ⟨?_, ?_, hiff, ?_⟩
  · intro o ho q hq
    obtain ⟨i, _, _, hop⟩ := hord o ho
    obtain ⟨k, _, _, hqp, hqe, _⟩ := hports q hq
    rw [hop, hqp, hqe]
    exact ⟨by omega, by omega⟩
  · intro q hq r hr
    obtain ⟨k, _, _, hqp, _, _⟩ := hports q hq
    obtain ⟨m, _, _, _, hre, _⟩ := hports r hr
    rw [hqp, hre]
    omega
  · intro hlo hcase
    refine hiff.2 ?_
    intro k hk0 hk
    have hsum : goAdd c.DB.HostPort k = c.DB.HostPort + k := by
      unfold goAdd
      exact wrap64_of_inRange _ (by omega) (by omega)
    rw [hsum]
    refine ⟨?_, ?_⟩
    · intro i hi0 hi
      omega
    · intro m hm0 hm
      exact ⟨by omega, by omega⟩

/-- C2 (as amended), at the sample configuration, whose storage ports start
at 5984, below 7050, and at the sample with storage ports from 20000, above
every other port: in both the four port sets are pairwise disjoint. -/
theorem ports_disjoint_witness :
    ((0 < sampleConfig.OrdererNodes ∧ 0 < sampleConfig.PeerOrgs ∧
        0 < sampleConfig.PeersPerOrg ∧
        synthesize envOk.allocate sampleConfig = .ok (expectedGenInfo sampleConfig)) ∧
      (∀ o ∈ (expectedGenInfo sampleConfig).Orderers,
        ∀ q ∈ (expectedGenInfo sampleConfig).Peers,
          o.Port ≠ q.Port ∧ o.Port ≠ q.EventPort) ∧
      (∀ q ∈ (expectedGenInfo sampleConfig).Peers,
        ∀ r ∈ (expectedGenInfo sampleConfig).Peers, q.Port ≠ r.EventPort) ∧
      (∀ q ∈ (expectedGenInfo sampleConfig).Peers,
        (∀ o ∈ (expectedGenInfo sampleConfig).Orderers, q.DB.Port ≠ o.Port) ∧
        ∀ r ∈ (expectedGenInfo sampleConfig).Peers,
          q.DB.Port ≠ r.Port ∧ q.DB.Port ≠ r.EventPort)) ∧
    (synthesize envOk.allocate cfgHostPortHigh = .ok (expectedGenInfo cfgHostPortHigh) ∧
      ∀ q ∈ (expectedGenInfo cfgHostPortHigh).Peers,
        (∀ o ∈ (expectedGenInfo cfgHostPortHigh).Orderers, q.DB.Port ≠ o.Port) ∧
        ∀ r ∈ (expectedGenInfo cfgHostPortHigh).Peers,
          q.DB.Port ≠ r.Port ∧ q.DB.Port ≠ r.EventPort) := by
  have H := ports_disjoint envOk.allocate sampleConfig (expectedGenInfo sampleConfig)
    (by decide) (by decide) rfl
  have K := ports_disjoint envOk.allocate cfgHostPortHigh (expectedGenInfo cfgHostPortHigh)
    (by decide) (by decide) rfl
  exact ⟨⟨⟨by decide, by decide, by decide, rfl⟩, H.1, H.2.1,
      H.2.2.2 (by decide) (Or.inl (by decide))⟩,
    rfl, K.2.2.2 (by decide) (Or.inr ⟨by decide, by decide, by decide⟩)⟩

/-- C2, as stated, fails: with `DB.HostPort = 7051` the storage port of the
first peer is the `Port` of the first peer. -/
theorem storage_port_clash :
    (0 < cfgPortClash.OrdererNodes ∧ 0 < cfgPortClash.PeerOrgs ∧
      0 < cfgPortClash.PeersPerOrg) ∧
    ∃ gi, synthesize envOk.allocate cfgPortClash = .ok gi ∧
      ∃ q ∈ gi.Peers, ∃ r ∈ gi.Peers, q.DB.Port = r.Port := by
  refine ⟨⟨by decide, by decide, by decide⟩, expectedGenInfo cfgPortClash, rfl, ?_⟩
  decide

end NetComposer
